import Mathlib

/-!
# Verification of the workspace service core

A shallow embedding of the Go workspace service
(`Reg-Kris/pyairtable-workspace-service-go`): the data model
(`internal/models/models.go`), the repositories
(`internal/repositories/*.go`, the cache repository and the project /
airtable-base repositories from the unnamed repository files), and the
domain services (workspace, project, member and audit services).

Modelling conventions:
* The durable store is a `Db` record of row lists; the Redis cache is a
  `Cache` record of key/value association lists.  Every repository and
  service operation is a pure function threading these states.
* Timestamps (`CreatedAt`, `UpdatedAt`, `JoinedAt`, audit `CreatedAt`)
  are modelled as `Nat` where an operation's behaviour depends on them
  (member ordering, audit ordering) and omitted otherwise.  The JSONB
  `Settings` maps are omitted: no verified property depends on them.
* Go `int`/`int64` page parameters are modelled as `Int` (they come from
  query parsing and may be negative); row counts are list lengths
  (`Nat`) and are cast to `Int` exactly where the Go code casts
  (`int(total)`).
* The only external-store failures modelled are the two an analysed
  property depends on, collected in `Env`: a failing audit-log insert
  and a failing member insert.  `env` with both flags false is the
  healthy store.
* GORM soft delete (`gorm.DeletedAt`) is the `deleted : Bool` marker;
  queries written with `deleted_at IS NULL` (and GORM's implicit
  soft-delete scope on `workspaces`/`projects`/`airtable_bases`) filter
  on it.  `workspace_members` and audit rows have no soft delete.
-/

namespace WorkspaceSvc

/-- `models.WorkspaceMemberRole` is a Go string type; roles are strings. -/
abbrev Role := String

/-- JSON value inside an audit `Changes` payload: either a flat value or
an `{old, new}` pair, as built by the domain services. -/
inductive JVal where
  | str (v : String)
  | oldNew (old new : String)
  deriving DecidableEq, Repr

/-- `models.JSONMap` as used for audit change payloads. -/
abbrev JMap := List (String × JVal)

/-- `models.Workspace` (timestamps and `Settings` omitted; `DeletedAt`
is the `deleted` marker). -/
structure Workspace where
  id : String
  tenantId : String
  name : String
  description : String
  createdBy : String
  deleted : Bool
  deriving DecidableEq, Repr

/-- `models.Project`. -/
structure Project where
  id : String
  workspaceId : String
  name : String
  description : String
  status : String
  createdBy : String
  deleted : Bool
  deriving DecidableEq, Repr

/-- `models.AirtableBase` (the external-base connection; `LastSyncAt`
omitted). -/
structure AirtableBase where
  id : String
  projectId : String
  baseId : String
  name : String
  description : String
  syncEnabled : Bool
  deleted : Bool
  deriving DecidableEq, Repr

/-- `models.WorkspaceMember`: composite key (WorkspaceID, UserID), no
soft delete.  `joinedAt` is an abstract tick used only for ordering. -/
structure Member where
  workspaceId : String
  userId : String
  role : Role
  joinedAt : Nat
  deriving DecidableEq, Repr

/-- `models.WorkspaceAuditLog` (append-only). -/
structure AuditLog where
  id : String
  workspaceId : String
  userId : String
  action : String
  resourceType : String
  resourceId : String
  changes : JMap
  createdAt : Nat
  deriving DecidableEq, Repr

/-- The durable relational store: the five logical tables. -/
structure Db where
  workspaces : List Workspace
  projects : List Project
  bases : List AirtableBase
  members : List Member
  auditLogs : List AuditLog
  deriving DecidableEq, Repr

/-- The Redis cache: `workspace:<id>`, `project:<id>` and
`user:workspaces:<userID>` key spaces (TTL not modelled; expiry only
produces extra misses, which every verified property already covers). -/
structure Cache where
  workspaces : List (String × Workspace)
  projects : List (String × Project)
  userWorkspaces : List (String × List String)
  deriving DecidableEq, Repr

/-- Combined mutable state seen by a domain-service operation. -/
structure St where
  db : Db
  cache : Cache
  deriving DecidableEq, Repr

/-- External-store fault channels relevant to the verified properties:
`auditCreateFails` makes the audit-log insert return an error,
`memberAddFails` makes the member insert return an error (both model
the `err != nil` branch of the underlying store call). -/
structure Env where
  auditCreateFails : Bool
  memberAddFails : Bool
  deriving DecidableEq, Repr

/-- Error values of `internal/repositories` (the `errors.New` values)
and of the service layer (`ErrUnauthorized`, `ErrQuotaExceeded`), plus
the two `fmt.Errorf` child-blocking errors and a store failure. -/
inductive SvcError where
  | workspaceNotFound
  | projectNotFound
  | airtableBaseNotFound
  | memberNotFound
  | duplicateWorkspace
  | duplicateProject
  | duplicateAirtableBase
  | duplicateMember
  | lastOwner
  | unauthorized
  | quotaExceeded
  | invalidStatus (s : String)
  | workspaceHasProjects (n : Nat)
  | projectHasBases (n : Nat)
  | storeFailure
  deriving DecidableEq, Repr

/-! ## Role hierarchy evaluator (`hasRequiredRole`, unnamed services file) -/

/-- The `roleHierarchy` map literal inside `hasRequiredRole`:
viewer 1, member 2, admin 3, owner 4; lookup of any other string
misses (`ok == false`). -/
def roleHierarchy (r : Role) : Option Nat :=
  if r = "viewer" then some 1
  else if r = "member" then some 2
  else if r = "admin" then some 3
  else if r = "owner" then some 4
  else none

/-- `hasRequiredRole(userRole, requiredRole)`: both ranks must resolve
(`ok1 && ok2`), then `userLevel >= requiredLevel`. -/
def hasRequiredRole (userRole requiredRole : Role) : Bool :=
  match roleHierarchy userRole, roleHierarchy requiredRole with
  | some userLevel, some requiredLevel => decide (requiredLevel ≤ userLevel)
  | _, _ => false

/-- The closed role enum of `models.go`. -/
def roleEnum : List Role := ["owner", "admin", "member", "viewer"]

/-- Rank table as the specification words it (spec §4.1 / claim C5):
owner=4, admin=3, member=2, viewer=1.  Stated separately from the
code's `roleHierarchy` so the two can be compared. -/
def specRank (r : Role) : Nat :=
  if r = "owner" then 4
  else if r = "admin" then 3
  else if r = "member" then 2
  else if r = "viewer" then 1
  else 0

/-! ## List helpers shared by the repositories -/

/-- `pat` occurs as a contiguous segment of `l`. -/
def segIn (pat : List Char) : List Char → Bool
  | [] => pat.isEmpty
  | c :: rest => pat.isPrefixOf (c :: rest) || segIn pat rest

/-- `LOWER(field) LIKE '%' || LOWER(pat) || '%'`: case-insensitive
substring match, as built by the repositories' search filters. -/
def likeLower (field pat : String) : Bool :=
  segIn pat.toLower.toList field.toLower.toList

/-- `if page < 1 { page = 1 }`. -/
def clampPage (page : Int) : Int := if page < 1 then 1 else page

/-- `if pageSize < 1 { pageSize = deflt }; if pageSize > 100 { pageSize = 100 }`. -/
def clampPageSize (deflt pageSize : Int) : Int :=
  let ps := if pageSize < 1 then deflt else pageSize
  if ps > 100 then 100 else ps

/-- `OFFSET (page-1)*pageSize LIMIT pageSize` (arguments already clamped). -/
def paginate (page pageSize : Int) (l : List α) : List α :=
  (l.drop ((page - 1) * pageSize).toNat).take pageSize.toNat

/-- Insert into a list kept descending by `f` (stable). -/
def insertDescBy (f : α → Nat) (x : α) : List α → List α
  | [] => [x]
  | y :: ys => if f x ≤ f y then y :: insertDescBy f x ys else x :: y :: ys

/-- `ORDER BY f DESC` (insertion sort; only the multiset and the
descending order matter to the verified properties). -/
def sortDescBy (f : α → Nat) : List α → List α
  | [] => []
  | x :: xs => insertDescBy f x (sortDescBy f xs)

/-! ## Membership store (`workspace_member_repository.go`) -/

namespace MemberRepo

/-- `GetByWorkspaceAndUser`: first row matching the composite key, else
`ErrMemberNotFound`. -/
def getByWorkspaceAndUser (db : Db) (workspaceId userId : String) : Except SvcError Member :=
  match db.members.find? (fun m => m.workspaceId == workspaceId && m.userId == userId) with
  | some m => .ok m
  | none => .error .memberNotFound

/-- `CountOwners`: rows with this workspace and role owner. -/
def countOwners (db : Db) (workspaceId : String) : Nat :=
  (db.members.filter (fun m => m.workspaceId == workspaceId && m.role == "owner")).length

/-- `IsLastOwner`: target must be an owner, then `ownerCount <= 1`. -/
def isLastOwner (db : Db) (workspaceId userId : String) : Except SvcError Bool :=
  match getByWorkspaceAndUser db workspaceId userId with
  | .error e => .error e
  | .ok member =>
    if member.role != "owner" then .ok false
    else .ok (decide (countOwners db workspaceId ≤ 1))

/-- `Add`: duplicate-key precheck (`ErrDuplicateMember`), then insert;
`env.memberAddFails` is the store-error branch of the insert. -/
def add (env : Env) (db : Db) (member : Member) : Except SvcError Unit × Db :=
  let dup := (db.members.filter
    (fun m => m.workspaceId == member.workspaceId && m.userId == member.userId)).length
  if dup > 0 then (.error .duplicateMember, db)
  else if env.memberAddFails then (.error .storeFailure, db)
  else (.ok (), { db with members := db.members ++ [member] })

/-- The `UPDATE ... SET role` statement of `UpdateRole`, with the
`RowsAffected == 0` check. -/
def updateRoleWrite (db : Db) (workspaceId userId : String) (role : Role) : Except SvcError Unit × Db :=
  let affected := (db.members.filter
    (fun m => m.workspaceId == workspaceId && m.userId == userId)).length
  let updated := db.members.map
    (fun m => if m.workspaceId == workspaceId && m.userId == userId then { m with role := role } else m)
  if affected = 0 then (.error .memberNotFound, db)
  else (.ok (), { db with members := updated })

/-- `UpdateRole`: when the new role is not owner, the last-owner guard
runs first and `ErrLastOwner` aborts without mutation. -/
def updateRole (db : Db) (workspaceId userId : String) (role : Role) : Except SvcError Unit × Db :=
  if role != "owner" then
    match isLastOwner db workspaceId userId with
    | .error e => (.error e, db)
    | .ok true => (.error .lastOwner, db)
    | .ok false => updateRoleWrite db workspaceId userId role
  else updateRoleWrite db workspaceId userId role

/-- The `DELETE` statement of `Remove`, with the `RowsAffected == 0`
check (membership rows are hard-deleted). -/
def removeWrite (db : Db) (workspaceId userId : String) : Except SvcError Unit × Db :=
  let affected := (db.members.filter
    (fun m => m.workspaceId == workspaceId && m.userId == userId)).length
  let remaining := db.members.filter
    (fun m => !(m.workspaceId == workspaceId && m.userId == userId))
  if affected = 0 then (.error .memberNotFound, db)
  else (.ok (), { db with members := remaining })

/-- `Remove`: fetch the target; owners go through the last-owner guard. -/
def remove (db : Db) (workspaceId userId : String) : Except SvcError Unit × Db :=
  match getByWorkspaceAndUser db workspaceId userId with
  | .error e => (.error e, db)
  | .ok member =>
    if member.role == "owner" then
      match isLastOwner db workspaceId userId with
      | .error e => (.error e, db)
      | .ok true => (.error .lastOwner, db)
      | .ok false => removeWrite db workspaceId userId
    else removeWrite db workspaceId userId

/-- `List`: count, clamp page to `[1,..)` and pageSize to `[1,100]`
(default 20), `ORDER BY joined_at DESC`, then offset/limit. -/
def list (db : Db) (workspaceId : String) (page pageSize : Int) : List Member × Nat :=
  let rows := db.members.filter (fun m => m.workspaceId == workspaceId)
  let total := rows.length
  (paginate (clampPage page) (clampPageSize 20 pageSize) (sortDescBy (·.joinedAt) rows), total)

end MemberRepo

/-! ## Workspace store (`workspace_repository.go`) -/

/-- `models.WorkspaceFilter` (sort fields omitted: result ordering is
not modelled, only the row multiset and the count). -/
structure WorkspaceFilter where
  tenantId : String
  search : String
  createdBy : String
  page : Int
  pageSize : Int
  includeDeleted : Bool
  deriving DecidableEq, Repr

/-- GORM struct `Updates` semantics on a workspace row `r` written
with struct `w`: string fields of the struct that are zero-valued
(empty) are not written, the primary key is omitted from the SET
clause, and the soft-delete marker is not touched. -/
def updatesApply (r w : Workspace) : Workspace :=
  { r with
    tenantId := if w.tenantId != "" then w.tenantId else r.tenantId
    name := if w.name != "" then w.name else r.name
    description := if w.description != "" then w.description else r.description
    createdBy := if w.createdBy != "" then w.createdBy else r.createdBy }

namespace WorkspaceRepo

/-- `Create`: duplicate-name precheck among non-deleted rows of the
tenant (`ErrDuplicateWorkspace`), then insert. -/
def create (db : Db) (workspace : Workspace) : Except SvcError Unit × Db :=
  let dup := (db.workspaces.filter (fun w =>
    w.tenantId == workspace.tenantId && w.name == workspace.name && !w.deleted)).length
  if dup > 0 then (.error .duplicateWorkspace, db)
  else (.ok (), { db with workspaces := db.workspaces ++ [workspace] })

/-- `GetByID` (`deleted_at IS NULL`). -/
def getByID (db : Db) (id : String) : Except SvcError Workspace :=
  match db.workspaces.find? (fun w => w.id == id && !w.deleted) with
  | some w => .ok w
  | none => .error .workspaceNotFound

/-- `Update`: duplicate-name precheck against other non-deleted rows
when the name is non-empty, then `Model(workspace).Updates(workspace)`
on the row with this id (soft-delete scope).  GORM's struct `Updates`
writes only non-zero fields: an empty-string field of the struct is
skipped and the row keeps its stored value (`updatesApply`); the
primary key and the soft-delete marker are never part of the SET
clause.  `RowsAffected == 0` yields `ErrWorkspaceNotFound`. -/
def update (db : Db) (workspace : Workspace) : Except SvcError Unit × Db :=
  if workspace.name != "" &&
      (db.workspaces.filter (fun w =>
        w.tenantId == workspace.tenantId && w.name == workspace.name &&
        w.id != workspace.id && !w.deleted)).length > 0 then
    (.error .duplicateWorkspace, db)
  else
    let affected := (db.workspaces.filter (fun w => w.id == workspace.id && !w.deleted)).length
    let updated := db.workspaces.map
      (fun w => if w.id == workspace.id && !w.deleted then updatesApply w workspace else w)
    if affected = 0 then (.error .workspaceNotFound, db)
    else (.ok (), { db with workspaces := updated })

/-- `Delete`: GORM soft delete of the non-deleted row with this id. -/
def delete (db : Db) (id : String) : Except SvcError Unit × Db :=
  let affected := (db.workspaces.filter (fun w => w.id == id && !w.deleted)).length
  let updated := db.workspaces.map
    (fun w => if w.id == id && !w.deleted then { w with deleted := true } else w)
  if affected = 0 then (.error .workspaceNotFound, db)
  else (.ok (), { db with workspaces := updated })

/-- `List`: exact-match and search filters, soft-delete exclusion by
default, count before pagination. -/
def list (db : Db) (filter : WorkspaceFilter) : List Workspace × Nat :=
  let q := db.workspaces
  let q := if filter.tenantId != "" then q.filter (fun w => w.tenantId == filter.tenantId) else q
  let q := if filter.createdBy != "" then q.filter (fun w => w.createdBy == filter.createdBy) else q
  let q := if filter.search != "" then
    q.filter (fun w => likeLower w.name filter.search || likeLower w.description filter.search) else q
  let q := if !filter.includeDeleted then q.filter (fun w => !w.deleted) else q
  (paginate (clampPage filter.page) (clampPageSize 20 filter.pageSize) q, q.length)

end WorkspaceRepo

/-! ## Project store (project repository, unnamed repositories file) -/

/-- `models.ProjectFilter` (sort fields omitted as above). -/
structure ProjectFilter where
  workspaceId : String
  status : String
  search : String
  createdBy : String
  page : Int
  pageSize : Int
  includeDeleted : Bool
  deriving DecidableEq, Repr

namespace ProjectRepo

/-- `Create`: duplicate-name precheck among non-deleted rows of the
workspace (`ErrDuplicateProject`), then insert. -/
def create (db : Db) (project : Project) : Except SvcError Unit × Db :=
  let dup := (db.projects.filter (fun p =>
    p.workspaceId == project.workspaceId && p.name == project.name && !p.deleted)).length
  if dup > 0 then (.error .duplicateProject, db)
  else (.ok (), { db with projects := db.projects ++ [project] })

/-- `GetByID` (`deleted_at IS NULL`). -/
def getByID (db : Db) (id : String) : Except SvcError Project :=
  match db.projects.find? (fun p => p.id == id && !p.deleted) with
  | some p => .ok p
  | none => .error .projectNotFound

/-- `Delete`: soft delete of the non-deleted row with this id. -/
def delete (db : Db) (id : String) : Except SvcError Unit × Db :=
  let affected := (db.projects.filter (fun p => p.id == id && !p.deleted)).length
  let updated := db.projects.map
    (fun p => if p.id == id && !p.deleted then { p with deleted := true } else p)
  if affected = 0 then (.error .projectNotFound, db)
  else (.ok (), { db with projects := updated })

/-- `List`: exact-match and search filters, soft-delete exclusion by
default, count before pagination. -/
def list (db : Db) (filter : ProjectFilter) : List Project × Nat :=
  let q := db.projects
  let q := if filter.workspaceId != "" then q.filter (fun p => p.workspaceId == filter.workspaceId) else q
  let q := if filter.status != "" then q.filter (fun p => p.status == filter.status) else q
  let q := if filter.createdBy != "" then q.filter (fun p => p.createdBy == filter.createdBy) else q
  let q := if filter.search != "" then
    q.filter (fun p => likeLower p.name filter.search || likeLower p.description filter.search) else q
  let q := if !filter.includeDeleted then q.filter (fun p => !p.deleted) else q
  (paginate (clampPage filter.page) (clampPageSize 20 filter.pageSize) q, q.length)

/-- `CountByWorkspace`: non-deleted projects of the workspace. -/
def countByWorkspace (db : Db) (workspaceId : String) : Nat :=
  (db.projects.filter (fun p => p.workspaceId == workspaceId && !p.deleted)).length

end ProjectRepo

/-! ## Airtable-base store (`airtable_base_repository`, unnamed file) -/

/-- `models.AirtableBaseFilter` (sort fields omitted). -/
structure AirtableBaseFilter where
  projectId : String
  syncEnabled : Option Bool
  search : String
  page : Int
  pageSize : Int
  deriving DecidableEq, Repr

namespace AirtableBaseRepo

/-- `List`: filters, then the unconditional `deleted_at IS NULL`,
count before pagination. -/
def list (db : Db) (filter : AirtableBaseFilter) : List AirtableBase × Nat :=
  let q : List AirtableBase := db.bases
  let q : List AirtableBase := if filter.projectId != "" then q.filter (fun b => b.projectId == filter.projectId) else q
  let q : List AirtableBase := match filter.syncEnabled with
    | some v => q.filter (fun b => b.syncEnabled == v)
    | none => q
  let q := if filter.search != "" then
    q.filter (fun b => likeLower b.name filter.search || likeLower b.description filter.search ||
      likeLower b.baseId filter.search) else q
  let q := q.filter (fun b => !b.deleted)
  (paginate (clampPage filter.page) (clampPageSize 20 filter.pageSize) q, q.length)

end AirtableBaseRepo

/-! ## Audit-log store (`audit_log_repository.go`) -/

/-- `models.AuditLogFilter` (sort fields omitted). -/
structure AuditLogFilter where
  workspaceId : String
  userId : String
  action : String
  resourceType : String
  resourceId : String
  page : Int
  pageSize : Int
  deriving DecidableEq, Repr

namespace AuditLogRepo

/-- `Create`: plain insert; `env.auditCreateFails` is the store-error
branch. -/
def create (env : Env) (db : Db) (log : AuditLog) : Except SvcError Unit × Db :=
  if env.auditCreateFails then (.error .storeFailure, db)
  else (.ok (), { db with auditLogs := db.auditLogs ++ [log] })

/-- `List`: exact-match filters (no soft delete on audit rows), count,
`ORDER BY created_at DESC`, pagination with default page size 50. -/
def list (db : Db) (filter : AuditLogFilter) : List AuditLog × Nat :=
  let q := db.auditLogs
  let q := if filter.workspaceId != "" then q.filter (fun l => l.workspaceId == filter.workspaceId) else q
  let q := if filter.userId != "" then q.filter (fun l => l.userId == filter.userId) else q
  let q := if filter.action != "" then q.filter (fun l => l.action == filter.action) else q
  let q := if filter.resourceType != "" then q.filter (fun l => l.resourceType == filter.resourceType) else q
  let q := if filter.resourceId != "" then q.filter (fun l => l.resourceId == filter.resourceId) else q
  (paginate (clampPage filter.page) (clampPageSize 50 filter.pageSize) (sortDescBy (·.createdAt) q), q.length)

end AuditLogRepo

/-! ## Cache layer (cache repository, unnamed repositories file) -/

namespace CacheRepo

/-- `GetWorkspace` on key `workspace:<id>` (`redis.Nil` is a miss;
other cache-read failures also fall through to the store in every
caller, so they are modelled as misses). -/
def getWorkspace (c : Cache) (id : String) : Option Workspace :=
  List.lookup id c.workspaces

/-- `SetWorkspace`: upsert with TTL refresh. -/
def setWorkspace (c : Cache) (workspace : Workspace) : Cache :=
  { c with workspaces := (workspace.id, workspace) :: c.workspaces.filter (fun kv => kv.1 != workspace.id) }

/-- `DeleteWorkspace` on key `workspace:<id>`. -/
def deleteWorkspace (c : Cache) (id : String) : Cache :=
  { c with workspaces := c.workspaces.filter (fun kv => kv.1 != id) }

/-- `GetProject` on key `project:<id>`. -/
def getProject (c : Cache) (id : String) : Option Project :=
  List.lookup id c.projects

/-- `SetProject`: upsert with TTL refresh. -/
def setProject (c : Cache) (project : Project) : Cache :=
  { c with projects := (project.id, project) :: c.projects.filter (fun kv => kv.1 != project.id) }

/-- `DeleteProject` on key `project:<id>`. -/
def deleteProject (c : Cache) (id : String) : Cache :=
  { c with projects := c.projects.filter (fun kv => kv.1 != id) }

/-- `InvalidateWorkspaceCache`: delete the workspace entry and scan all
cached projects, deleting those whose parent is this workspace. -/
def invalidateWorkspaceCache (c : Cache) (workspaceId : String) : Cache :=
  let c := deleteWorkspace c workspaceId
  { c with projects := c.projects.filter (fun kv => kv.2.workspaceId != workspaceId) }

/-- `GetUserWorkspaces` on key `user:workspaces:<userID>`. -/
def getUserWorkspaces (c : Cache) (userId : String) : Option (List String) :=
  List.lookup userId c.userWorkspaces

/-- `SetUserWorkspaces`: upsert. -/
def setUserWorkspaces (c : Cache) (userId : String) (workspaceIds : List String) : Cache :=
  { c with userWorkspaces := (userId, workspaceIds) :: c.userWorkspaces.filter (fun kv => kv.1 != userId) }

/-- `InvalidateUserCache`: delete the user's workspace-list entry. -/
def invalidateUserCache (c : Cache) (userId : String) : Cache :=
  { c with userWorkspaces := c.userWorkspaces.filter (fun kv => kv.1 != userId) }

end CacheRepo

/-! ## Audit service (unnamed services file) -/

/-- `models.AuditLogListResponse`. -/
structure AuditLogListResponse where
  logs : List AuditLog
  total : Nat
  page : Int
  pageSize : Int
  totalPages : Int
  deriving DecidableEq, Repr

/-- `totalPages := int(total) / pageSize; if int(total)%pageSize > 0 { totalPages++ }`. -/
def totalPagesOf (total : Nat) (pageSize : Int) : Int :=
  (total : Int) / pageSize + (if (total : Int) % pageSize > 0 then 1 else 0)

namespace AuditService

/-- `LogAction`: build the entry and insert it; a failing insert is
logged and swallowed (`return nil // Don't propagate audit log errors`).
Store-assigned id and creation time are not modelled. -/
def logAction (env : Env) (db : Db) (workspaceId userId action resourceType resourceId : String)
    (changes : JMap) : Except SvcError Unit × Db :=
  let log : AuditLog := ⟨"", workspaceId, userId, action, resourceType, resourceId, changes, 0⟩
  match AuditLogRepo.create env db log with
  | (.error _, db') => (.ok (), db')
  | (.ok _, db') => (.ok (), db')

/-- The query-and-paginate tail of `GetAuditLogs` (page default 1,
page size default 50 for the reported fields). -/
def getAuditLogsQuery (st : St) (filter : AuditLogFilter) : Except SvcError AuditLogListResponse × St :=
  let (logs, total) := AuditLogRepo.list st.db filter
  let page := if filter.page < 1 then 1 else filter.page
  let pageSize := if filter.pageSize < 1 then 50 else filter.pageSize
  (.ok { logs := logs, total := total, page := page, pageSize := pageSize,
         totalPages := totalPagesOf total pageSize }, st)

/-- `GetAuditLogs`: when a workspace filter is present, a missing
membership row yields an empty success response and a role below admin
yields `ErrUnauthorized`; with no workspace filter the query runs with
no access check at all. -/
def getAuditLogs (st : St) (filter : AuditLogFilter) (userId : String) : Except SvcError AuditLogListResponse × St :=
  if filter.workspaceId != "" then
    match MemberRepo.getByWorkspaceAndUser st.db filter.workspaceId userId with
    | .error .memberNotFound =>
        (.ok { logs := [], total := 0, page := 1, pageSize := filter.pageSize, totalPages := 0 }, st)
    | .error e => (.error e, st)
    | .ok member =>
      if !(hasRequiredRole member.role "admin") then (.error .unauthorized, st)
      else getAuditLogsQuery st filter
  else getAuditLogsQuery st filter

end AuditService

/-! ## Workspace service (unnamed services file) -/

/-- `models.CreateWorkspaceRequest` (settings omitted). -/
structure CreateWorkspaceRequest where
  name : String
  description : String
  deriving DecidableEq, Repr

/-- `models.UpdateWorkspaceRequest` (settings omitted). -/
structure UpdateWorkspaceRequest where
  name : Option String
  description : Option String
  deriving DecidableEq, Repr

namespace WorkspaceService

/-- `CheckUserAccess`: membership lookup (absence collapses to
`ErrUnauthorized`), then the role-hierarchy check. -/
def checkUserAccess (db : Db) (workspaceId userId : String) (requiredRole : Role) : Except SvcError Unit :=
  match MemberRepo.getByWorkspaceAndUser db workspaceId userId with
  | .error .memberNotFound => .error .unauthorized
  | .error e => .error e
  | .ok member =>
    if !(hasRequiredRole member.role requiredRole) then .error .unauthorized
    else .ok ()

/-- `CreateWorkspace`.  The store-generated UUID is the explicit
`newId` argument.  `BeginTx` opens a transaction handle whose pending
write set stays empty: the repositories write through their own `db`
handle, not the transaction, so `Workspace.Create` and `Member.Add`
commit directly to the store and `tx.Rollback`/`tx.Commit` act on the
empty set only. -/
def createWorkspace (env : Env) (st : St) (tenantId userId : String)
    (req : CreateWorkspaceRequest) (newId : String) : Except SvcError Workspace × St :=
  let (_, count) := WorkspaceRepo.list st.db
    { tenantId := tenantId, search := "", createdBy := "", page := 0, pageSize := 1, includeDeleted := false }
  if 10 ≤ count then (.error .quotaExceeded, st)
  else
    let workspace : Workspace := ⟨newId, tenantId, req.name, req.description, userId, false⟩
    match WorkspaceRepo.create st.db workspace with
    | (.error e, db') => (.error e, { st with db := db' })
    | (.ok _, db1) =>
      match MemberRepo.add env db1
          { workspaceId := newId, userId := userId, role := "owner", joinedAt := 0 } with
      | (.error e, db2) => (.error e, { st with db := db2 })
      | (.ok _, db2) =>
        let cache1 := CacheRepo.setWorkspace st.cache workspace
        let (_, db3) := AuditService.logAction env db2 newId userId "workspace.created" "workspace" newId
          [("name", .str workspace.name), ("description", .str workspace.description),
           ("tenant_id", .str workspace.tenantId)]
        (.ok workspace, { st with db := db3, cache := cache1 })

/-- `GetWorkspace`: cache first (hit still runs the viewer access
check), else store read, access check, repopulate cache. -/
def getWorkspace (st : St) (workspaceId userId : String) : Except SvcError Workspace × St :=
  match CacheRepo.getWorkspace st.cache workspaceId with
  | some workspace =>
    match checkUserAccess st.db workspaceId userId "viewer" with
    | .error e => (.error e, st)
    | .ok _ => (.ok workspace, st)
  | none =>
    match WorkspaceRepo.getByID st.db workspaceId with
    | .error e => (.error e, st)
    | .ok workspace =>
      match checkUserAccess st.db workspaceId userId "viewer" with
      | .error e => (.error e, st)
      | .ok _ => (.ok workspace, { st with cache := CacheRepo.setWorkspace st.cache workspace })

/-- `UpdateWorkspace`: admin access, fetch, apply request fields while
tracking old/new changes, store update, cache invalidation, audit only
when something changed. -/
def updateWorkspace (env : Env) (st : St) (workspaceId userId : String)
    (req : UpdateWorkspaceRequest) : Except SvcError Workspace × St :=
  match checkUserAccess st.db workspaceId userId "admin" with
  | .error e => (.error e, st)
  | .ok _ =>
    match WorkspaceRepo.getByID st.db workspaceId with
    | .error e => (.error e, st)
    | .ok ws0 =>
      let step1 : Workspace × JMap := match req.name with
        | some n => ({ ws0 with name := n }, [("name", .oldNew ws0.name n)])
        | none => (ws0, [])
      let step2 : Workspace × JMap := match req.description with
        | some d => ({ step1.1 with description := d },
                     step1.2 ++ [("description", .oldNew step1.1.description d)])
        | none => step1
      match WorkspaceRepo.update st.db step2.1 with
      | (.error e, db') => (.error e, { st with db := db' })
      | (.ok _, db1) =>
        let cache1 := CacheRepo.deleteWorkspace st.cache workspaceId
        let db2 := if step2.2.length > 0 then
            (AuditService.logAction env db1 workspaceId userId "workspace.updated" "workspace"
              workspaceId step2.2).2
          else db1
        (.ok step2.1, { st with db := db2, cache := cache1 })

/-- `DeleteWorkspace`: owner access, reject while non-deleted projects
exist (`fmt.Errorf`), soft delete, cascade cache invalidation, audit. -/
def deleteWorkspace (env : Env) (st : St) (workspaceId userId : String) : Except SvcError Unit × St :=
  match checkUserAccess st.db workspaceId userId "owner" with
  | .error e => (.error e, st)
  | .ok _ =>
    let projectCount := ProjectRepo.countByWorkspace st.db workspaceId
    if projectCount > 0 then (.error (.workspaceHasProjects projectCount), st)
    else
      match WorkspaceRepo.delete st.db workspaceId with
      | (.error e, db') => (.error e, { st with db := db' })
      | (.ok _, db1) =>
        let cache1 := CacheRepo.invalidateWorkspaceCache st.cache workspaceId
        let (_, db2) := AuditService.logAction env db1 workspaceId userId "workspace.deleted"
          "workspace" workspaceId []
        (.ok (), { st with db := db2, cache := cache1 })

end WorkspaceService

/-! ## Project service (`project_service.go`) -/

/-- `models.CreateProjectRequest` (settings omitted). -/
structure CreateProjectRequest where
  name : String
  description : String
  deriving DecidableEq, Repr

/-- `models.ProjectListResponse`. -/
structure ProjectListResponse where
  projects : List Project
  total : Nat
  page : Int
  pageSize : Int
  totalPages : Int
  deriving DecidableEq, Repr

namespace ProjectService

/-- `checkProjectAccess`: membership in the project's parent workspace
(absence collapses to `ErrUnauthorized`), then the role check. -/
def checkProjectAccess (db : Db) (project : Project) (userId : String) (requiredRole : Role) : Except SvcError Unit :=
  match MemberRepo.getByWorkspaceAndUser db project.workspaceId userId with
  | .error .memberNotFound => .error .unauthorized
  | .error e => .error e
  | .ok member =>
    if !(hasRequiredRole member.role requiredRole) then .error .unauthorized
    else .ok ()

/-- `CreateProject`: parent workspace fetch, member-role access,
50-project quota, duplicate-name precheck and insert, cache the
project, audit. -/
def createProject (env : Env) (st : St) (workspaceId userId : String)
    (req : CreateProjectRequest) (newId : String) : Except SvcError Project × St :=
  match WorkspaceRepo.getByID st.db workspaceId with
  | .error e => (.error e, st)
  | .ok _workspace =>
    match MemberRepo.getByWorkspaceAndUser st.db workspaceId userId with
    | .error .memberNotFound => (.error .unauthorized, st)
    | .error e => (.error e, st)
    | .ok member =>
      if !(hasRequiredRole member.role "member") then (.error .unauthorized, st)
      else
        let projectCount := ProjectRepo.countByWorkspace st.db workspaceId
        if 50 ≤ projectCount then (.error .quotaExceeded, st)
        else
          let project : Project := ⟨newId, workspaceId, req.name, req.description, "active", userId, false⟩
          match ProjectRepo.create st.db project with
          | (.error e, db') => (.error e, { st with db := db' })
          | (.ok _, db1) =>
            let cache1 := CacheRepo.setProject st.cache project
            let (_, db2) := AuditService.logAction env db1 workspaceId userId "project.created"
              "project" newId
              [("name", .str project.name), ("description", .str project.description),
               ("workspace_id", .str workspaceId)]
            (.ok project, { st with db := db2, cache := cache1 })

/-- `DeleteProject`: fetch, admin access on the parent workspace,
reject while non-deleted connected bases exist (`fmt.Errorf`), soft
delete, cache invalidation, audit. -/
def deleteProject (env : Env) (st : St) (projectId userId : String) : Except SvcError Unit × St :=
  match ProjectRepo.getByID st.db projectId with
  | .error e => (.error e, st)
  | .ok project =>
    match checkProjectAccess st.db project userId "admin" with
    | .error e => (.error e, st)
    | .ok _ =>
      let (_, baseCount) := AirtableBaseRepo.list st.db
        { projectId := projectId, syncEnabled := none, search := "", page := 0, pageSize := 1 }
      if baseCount > 0 then (.error (.projectHasBases baseCount), st)
      else
        match ProjectRepo.delete st.db projectId with
        | (.error e, db') => (.error e, { st with db := db' })
        | (.ok _, db1) =>
          let cache1 := CacheRepo.deleteProject st.cache projectId
          let (_, db2) := AuditService.logAction env db1 project.workspaceId userId
            "project.deleted" "project" projectId [("name", .str project.name)]
          (.ok (), { st with db := db2, cache := cache1 })

/-- The query-and-paginate tail of `ListProjects`. -/
def listProjectsQuery (st : St) (filter : ProjectFilter) : Except SvcError ProjectListResponse × St :=
  let (projects, total) := ProjectRepo.list st.db filter
  let page := if filter.page < 1 then 1 else filter.page
  let pageSize := if filter.pageSize < 1 then 20 else filter.pageSize
  (.ok { projects := projects, total := total, page := page, pageSize := pageSize,
         totalPages := totalPagesOf total pageSize }, st)

/-- `ListProjects`: with a workspace filter, a missing membership row
yields an empty success response and a role below viewer yields
`ErrUnauthorized`; without one the query runs unchecked. -/
def listProjects (st : St) (filter : ProjectFilter) (userId : String) : Except SvcError ProjectListResponse × St :=
  if filter.workspaceId != "" then
    match MemberRepo.getByWorkspaceAndUser st.db filter.workspaceId userId with
    | .error .memberNotFound =>
        (.ok { projects := [], total := 0, page := 1, pageSize := filter.pageSize, totalPages := 0 }, st)
    | .error e => (.error e, st)
    | .ok member =>
      if !(hasRequiredRole member.role "viewer") then (.error .unauthorized, st)
      else listProjectsQuery st filter
  else listProjectsQuery st filter

end ProjectService

/-! ## Member service (`member_service.go`) -/

/-- `models.WorkspaceMemberListResponse`. -/
structure MemberListResponse where
  members : List Member
  total : Nat
  page : Int
  pageSize : Int
  totalPages : Int
  deriving DecidableEq, Repr

namespace MemberService

/-- `ListMembers`: a missing membership row yields an empty success
response; any member role passes the viewer check; the repository list
call receives the raw page arguments while the response reports the
service's own clamping (no upper bound on pageSize). -/
def listMembers (st : St) (workspaceId userId : String) (page pageSize : Int) : Except SvcError MemberListResponse × St :=
  match MemberRepo.getByWorkspaceAndUser st.db workspaceId userId with
  | .error .memberNotFound =>
      (.ok { members := [], total := 0, page := page, pageSize := pageSize, totalPages := 0 }, st)
  | .error e => (.error e, st)
  | .ok member =>
    if !(hasRequiredRole member.role "viewer") then (.error .unauthorized, st)
    else
      let (members, total) := MemberRepo.list st.db workspaceId page pageSize
      let page' := if page < 1 then 1 else page
      let pageSize' := if pageSize < 1 then 20 else pageSize
      (.ok { members := members, total := total, page := page', pageSize := pageSize',
             totalPages := totalPagesOf total pageSize' }, st)

end MemberService

/-! ## Derived notions used by the verified properties -/

instance {ε α : Type} [DecidableEq ε] [DecidableEq α] : DecidableEq (Except ε α) := fun x y =>
  match x, y with
  | .error a, .error b => if h : a = b then .isTrue (by rw [h]) else .isFalse (by simp [h])
  | .ok a, .ok b => if h : a = b then .isTrue (by rw [h]) else .isFalse (by simp [h])
  | .error _, .ok _ => .isFalse (by simp)
  | .ok _, .error _ => .isFalse (by simp)

/-- Non-deleted workspaces owned by a tenant, as the quota check counts
them. -/
def tenantWorkspaceCount (db : Db) (t : String) : Nat :=
  (db.workspaces.filter (fun w => w.tenantId == t && !w.deleted)).length

/-- Freshness of workspace `wid` at name `x`: whatever copy of the
workspace the cache holds carries name `x`, and so does the durable
row a cache miss would read. -/
def freshName (st : St) (wid x : String) : Prop :=
  (∀ c, CacheRepo.getWorkspace st.cache wid = some c → c.name = x) ∧
  (∀ w, WorkspaceRepo.getByID st.db wid = .ok w → w.name = x)

/-! ## General lemmas -/

/-- A string outside the closed role enum misses the rank map. -/
theorem roleHierarchy_eq_none (s : Role) (hs : s ∉ roleEnum) : roleHierarchy s = none := by
  simp only [roleEnum, List.mem_cons, List.not_mem_nil, or_false, not_or] at hs
  obtain ⟨h1, h2, h3, h4⟩ := hs
  simp [roleHierarchy, h1, h2, h3, h4]

/-- The membership lookup succeeds and returns the unique row with the
composite key. -/
theorem memberGet_eq_ok (db : Db) (w u : String) (m : Member)
    (hmem : m ∈ db.members) (hw : m.workspaceId = w) (hu : m.userId = u)
    (huniq : ∀ m1 ∈ db.members, ∀ m2 ∈ db.members,
      m1.workspaceId = m2.workspaceId → m1.userId = m2.userId → m1 = m2) :
    MemberRepo.getByWorkspaceAndUser db w u = .ok m := by
  unfold MemberRepo.getByWorkspaceAndUser
  have hex : (db.members.find? (fun x => x.workspaceId == w && x.userId == u)).isSome := by
    apply List.find?_isSome.mpr
    exact ⟨m, hmem, by simp [hw, hu]⟩
  obtain ⟨m', hm'⟩ := Option.isSome_iff_exists.mp hex
  have hpm' := List.find?_some hm'
  have hmm' := List.mem_of_find?_eq_some hm'
  simp only [Bool.and_eq_true, beq_iff_eq] at hpm'
  have : m' = m := huniq m' hmm' m hmem (hpm'.1.trans hw.symm) (hpm'.2.trans hu.symm)
  rw [hm', this]

/-- Looking up a key other than the filtered-out one is unaffected. -/
theorem lookup_filter_ne_key {α : Type} (l : List (String × α)) (a k : String) (h : a ≠ k) :
    List.lookup a (l.filter (fun kv => kv.1 != k)) = List.lookup a l := by
  induction l with
  | nil => rfl
  | cons kv rest ih =>
    by_cases hk : kv.1 = k
    · have ha : (a == kv.1) = false := beq_eq_false_iff_ne.mpr (fun he => h (he.trans hk))
      have hak : (a == k) = false := beq_eq_false_iff_ne.mpr h
      simp [List.filter_cons, hk, List.lookup, ha, hak, ih]
    · by_cases hak : a = kv.1
      · simp [List.filter_cons, hk, List.lookup, hak]
      · have ha : (a == kv.1) = false := beq_eq_false_iff_ne.mpr hak
        simp [List.filter_cons, hk, List.lookup, ha, ih]

/-- Looking up the filtered-out key yields nothing. -/
theorem lookup_filter_self {α : Type} (l : List (String × α)) (k : String) :
    List.lookup k (l.filter (fun kv => kv.1 != k)) = none := by
  induction l with
  | nil => rfl
  | cons kv rest ih =>
    by_cases hk : kv.1 = k
    · simp [List.filter_cons, hk, ih]
    · have hkk : (k == kv.1) = false := beq_eq_false_iff_ne.mpr (Ne.symm hk)
      simp [List.filter_cons, hk, List.lookup, hkk, ih]

/-- A deleted cache key reads as a miss. -/
theorem cacheGet_delete (c : Cache) (wid : String) :
    CacheRepo.getWorkspace (CacheRepo.deleteWorkspace c wid) wid = none := by
  unfold CacheRepo.getWorkspace CacheRepo.deleteWorkspace
  exact lookup_filter_self c.workspaces wid

/-- Reading the cache after an upsert: the upserted workspace under its
own id, otherwise the previous content. -/
theorem cacheGet_set (c : Cache) (w : Workspace) (k : String) :
    CacheRepo.getWorkspace (CacheRepo.setWorkspace c w) k =
      if k = w.id then some w else CacheRepo.getWorkspace c k := by
  unfold CacheRepo.getWorkspace CacheRepo.setWorkspace
  by_cases hk : k = w.id
  · simp [List.lookup, hk]
  · have hkk : (k == w.id) = false := beq_eq_false_iff_ne.mpr hk
    simp only [List.lookup, hkk, if_neg hk]
    exact lookup_filter_ne_key c.workspaces k w.id hk

/-- `LogAction` leaves the workspace table unchanged. -/
theorem logAction_workspaces (env : Env) (db : Db) (w u a rt rid : String) (ch : JMap) :
    (AuditService.logAction env db w u a rt rid ch).2.workspaces = db.workspaces := by
  unfold AuditService.logAction AuditLogRepo.create
  by_cases h : env.auditCreateFails <;> simp [h]

/-- A successful store update rewrites exactly the non-deleted rows
with the updated workspace's id, each through the `Updates`
(non-zero-field) merge. -/
theorem update_ok_workspaces (db : Db) (w : Workspace) (db1 : Db)
    (h : WorkspaceRepo.update db w = (.ok (), db1)) :
    db1.workspaces = db.workspaces.map
      (fun r => if r.id == w.id && !r.deleted then updatesApply r w else r) := by
  unfold WorkspaceRepo.update at h
  dsimp only at h
  split at h
  · exact absurd (congrArg Prod.fst h) (by simp)
  · split at h
    · exact absurd (congrArg Prod.fst h) (by simp)
    · have h2 := congrArg Prod.snd h
      dsimp only at h2
      rw [← h2]

/-- `GetByID` returns a non-deleted row carrying the requested id. -/
theorem getByID_ok_id (db : Db) (id : String) (w : Workspace)
    (h : WorkspaceRepo.getByID db id = .ok w) : w.id = id ∧ w.deleted = false := by
  unfold WorkspaceRepo.getByID at h
  cases hf : db.workspaces.find? (fun r => r.id == id && !r.deleted) with
  | none => rw [hf] at h; exact absurd h (by simp)
  | some a =>
    rw [hf] at h
    have hp := List.find?_some hf
    simp only [Bool.and_eq_true, beq_iff_eq, Bool.not_eq_true'] at hp
    injection h with h1
    rw [← h1]
    exact hp

/-- `GetByID` reads only the workspace table. -/
theorem getByID_ws_eq (d1 d2 : Db) (h : d1.workspaces = d2.workspaces) (i : String) :
    WorkspaceRepo.getByID d1 i = WorkspaceRepo.getByID d2 i := by
  unfold WorkspaceRepo.getByID
  rw [h]

/-- After merging struct `u` (with `u.id = wid` and a non-empty name
`x`) into the non-deleted rows carrying its id, any successful
`GetByID wid` returns a row named `x`. -/
theorem getByID_updated_name (db1 : Db) (base : List Workspace) (u : Workspace) (wid x : String)
    (hws : db1.workspaces = base.map
      (fun r => if r.id == u.id && !r.deleted then updatesApply r u else r))
    (hid : u.id = wid) (hx : u.name = x) (hx0 : x ≠ "") :
    ∀ w, WorkspaceRepo.getByID db1 wid = .ok w → w.name = x := by
  intro w hw
  unfold WorkspaceRepo.getByID at hw
  rw [hws] at hw
  cases hf : (base.map (fun r => if r.id == u.id && !r.deleted then updatesApply r u else r)).find?
      (fun r => r.id == wid && !r.deleted) with
  | none => rw [hf] at hw; exact absurd hw (by simp)
  | some a =>
    rw [hf] at hw
    injection hw with h1
    rw [← h1]
    have hp := List.find?_some hf
    have hmem := List.mem_of_find?_eq_some hf
    obtain ⟨r, hr, hfr⟩ := List.mem_map.mp hmem
    by_cases hc : (r.id == u.id && !r.deleted) = true
    · rw [if_pos hc] at hfr
      rw [← hfr]
      simp [updatesApply, hx, hx0]
    · rw [if_neg hc] at hfr
      rw [← hfr] at hp
      rw [hid] at hc
      exact absurd hp hc

/-- Freshness of a workspace's name survives any `GetWorkspace`, and a
successful read of that workspace under freshness returns the fresh
name — whether served from the cache or read through from the store. -/
theorem getWorkspace_keeps_freshName (st2 : St) (wid x : String) (hf : freshName st2 wid x) :
    (∀ uid2 ws2, (WorkspaceService.getWorkspace st2 wid uid2).1 = .ok ws2 → ws2.name = x) ∧
    (∀ wid2 uid2, freshName (WorkspaceService.getWorkspace st2 wid2 uid2).2 wid x) := by
  obtain ⟨hfc, hfd⟩ := hf
  constructor
  · intro uid2 ws2 h
    unfold WorkspaceService.getWorkspace at h
    cases hc : CacheRepo.getWorkspace st2.cache wid with
    | some c =>
      rw [hc] at h
      dsimp only at h
      cases hacc : WorkspaceService.checkUserAccess st2.db wid uid2 "viewer" with
      | error e => rw [hacc] at h; exact absurd h (by simp)
      | ok u1 =>
        rw [hacc] at h
        injection h with h1
        rw [← h1]
        exact hfc c hc
    | none =>
      rw [hc] at h
      dsimp only at h
      cases hg : WorkspaceRepo.getByID st2.db wid with
      | error e => rw [hg] at h; exact absurd h (by simp)
      | ok w =>
        rw [hg] at h
        dsimp only at h
        cases hacc : WorkspaceService.checkUserAccess st2.db wid uid2 "viewer" with
        | error e => rw [hacc] at h; exact absurd h (by simp)
        | ok u1 =>
          rw [hacc] at h
          injection h with h1
          rw [← h1]
          exact hfd w hg
  · intro wid2 uid2
    unfold WorkspaceService.getWorkspace
    cases hc : CacheRepo.getWorkspace st2.cache wid2 with
    | some c =>
      cases hacc : WorkspaceService.checkUserAccess st2.db wid2 uid2 "viewer" with
      | error e => simp only [hacc]; exact ⟨hfc, hfd⟩
      | ok u1 => simp only [hacc]; exact ⟨hfc, hfd⟩
    | none =>
      cases hg : WorkspaceRepo.getByID st2.db wid2 with
      | error e => simp only [hg]; exact ⟨hfc, hfd⟩
      | ok w =>
        cases hacc : WorkspaceService.checkUserAccess st2.db wid2 uid2 "viewer" with
        | error e => simp only [hg, hacc]; exact ⟨hfc, hfd⟩
        | ok u1 =>
          simp only [hg, hacc]
          constructor
          · intro c hcget
            rw [cacheGet_set] at hcget
            by_cases hk : wid = w.id
            · rw [if_pos hk] at hcget
              injection hcget with h1
              rw [← h1]
              have hid := (getByID_ok_id st2.db wid2 w hg).1
              apply hfd
              rw [show wid2 = wid from (hk.trans hid).symm] at hg
              exact hg
            · rw [if_neg hk] at hcget
              exact hfc c hcget
          · exact hfd

/-! ## C1 -/

/-- C1: for a workspace whose membership set has exactly one owner,
`Remove` on that owner and `UpdateRole` on that owner to any non-owner
role both fail with the LastOwner error and leave the membership rows
untouched. -/
theorem c1_last_owner_protected (db : Db) (w u : String) (m : Member)
    (hmem : m ∈ db.members) (hw : m.workspaceId = w) (hu : m.userId = u)
    (hrole : m.role = "owner")
    (huniq : ∀ m1 ∈ db.members, ∀ m2 ∈ db.members,
      m1.workspaceId = m2.workspaceId → m1.userId = m2.userId → m1 = m2)
    (hone : MemberRepo.countOwners db w = 1) :
    MemberRepo.remove db w u = (.error .lastOwner, db) ∧
    ∀ r, r ≠ "owner" → MemberRepo.updateRole db w u r = (.error .lastOwner, db) := by
  have hget := memberGet_eq_ok db w u m hmem hw hu huniq
  have hlast : MemberRepo.isLastOwner db w u = .ok true := by
    unfold MemberRepo.isLastOwner
    rw [hget]
    simp [hrole, hone]
  constructor
  · unfold MemberRepo.remove
    rw [hget]
    simp [hrole, hlast]
  · intro r hr
    unfold MemberRepo.updateRole
    have : (r != "owner") = true := by simp [hr]
    rw [this]
    simp [hlast]

/-- Witness for C1 at a concrete one-owner store. -/
theorem c1_last_owner_protected_witness :
    MemberRepo.remove ⟨[], [], [], [⟨"w1", "u1", "owner", 0⟩], []⟩ "w1" "u1" =
      (.error .lastOwner, ⟨[], [], [], [⟨"w1", "u1", "owner", 0⟩], []⟩) ∧
    MemberRepo.updateRole ⟨[], [], [], [⟨"w1", "u1", "owner", 0⟩], []⟩ "w1" "u1" "member" =
      (.error .lastOwner, ⟨[], [], [], [⟨"w1", "u1", "owner", 0⟩], []⟩) := by
  have h := c1_last_owner_protected ⟨[], [], [], [⟨"w1", "u1", "owner", 0⟩], []⟩ "w1" "u1"
    ⟨"w1", "u1", "owner", 0⟩ (by decide) rfl rfl rfl (by decide) (by decide)
  exact ⟨h.1, h.2 "member" (by decide)⟩

/-! ## C5 -/

/-- C5: the role evaluator agrees with rank comparison
(owner=4, admin=3, member=2, viewer=1) on every pair of roles from the
closed enum, and returns false whenever either argument is outside it. -/
theorem c5_role_hierarchy :
    (∀ r1 ∈ roleEnum, ∀ r2 ∈ roleEnum,
      hasRequiredRole r1 r2 = decide (specRank r2 ≤ specRank r1)) ∧
    (∀ s, s ∉ roleEnum → ∀ r,
      hasRequiredRole s r = false ∧ hasRequiredRole r s = false) := by
  constructor
  · intro r1 h1 r2 h2
    fin_cases h1 <;> fin_cases h2 <;> decide
  · intro s hs r
    have hn := roleHierarchy_eq_none s hs
    constructor
    · simp [hasRequiredRole, hn]
    · cases hr : roleHierarchy r <;> simp [hasRequiredRole, hn, hr]

/-! ## C6 -/

/-- `LogAction` leaves every non-audit table unchanged. -/
theorem logAction_projects (env : Env) (db : Db) (w u a rt rid : String) (ch : JMap) :
    (AuditService.logAction env db w u a rt rid ch).2.projects = db.projects := by
  unfold AuditService.logAction AuditLogRepo.create
  by_cases h : env.auditCreateFails <;> simp [h]

/-- C6: `LogAction` returns success even when the audit-store insert
fails, and `CreateProject`'s result, its persisted project rows and its
cache are independent of the audit-store outcome; whenever it returns a
project, that project is persisted. -/
theorem c6_audit_never_fails_operation :
    (∀ (env : Env) (db : Db) (w u a rt rid : String) (ch : JMap),
      (AuditService.logAction env db w u a rt rid ch).1 = .ok ()) ∧
    (∀ (env : Env) (st : St) (wid uid : String) (req : CreateProjectRequest) (nid : String),
      (ProjectService.createProject env st wid uid req nid).1 =
        (ProjectService.createProject ⟨false, env.memberAddFails⟩ st wid uid req nid).1 ∧
      (ProjectService.createProject env st wid uid req nid).2.db.projects =
        (ProjectService.createProject ⟨false, env.memberAddFails⟩ st wid uid req nid).2.db.projects ∧
      ∀ p, (ProjectService.createProject env st wid uid req nid).1 = .ok p →
        p ∈ (ProjectService.createProject env st wid uid req nid).2.db.projects) := by
  constructor
  · intro env db w u a rt rid ch
    by_cases h : env.auditCreateFails <;>
      simp [AuditService.logAction, AuditLogRepo.create, h]
  · intro env st wid uid req nid
    cases hga : WorkspaceRepo.getByID st.db wid with
    | error e => simp [ProjectService.createProject, hga]
    | ok wsp =>
      cases hgm : MemberRepo.getByWorkspaceAndUser st.db wid uid with
      | error e => cases e <;> simp [ProjectService.createProject, hga, hgm]
      | ok member =>
        by_cases hrr : hasRequiredRole member.role "member"
        · by_cases hq : 50 ≤ ProjectRepo.countByWorkspace st.db wid
          · simp [ProjectService.createProject, hga, hgm, hrr, hq]
          · rcases hc : ProjectRepo.create st.db
                ⟨nid, wid, req.name, req.description, "active", uid, false⟩ with ⟨res, db1⟩
            cases res with
            | error e =>
              simp [ProjectService.createProject, hga, hgm, hrr, hq, hc]
            | ok u0 =>
              have hmemproj : (⟨nid, wid, req.name, req.description, "active", uid, false⟩ : Project)
                  ∈ db1.projects := by
                unfold ProjectRepo.create at hc
                dsimp only at hc
                split at hc
                · exact absurd (congrArg Prod.fst hc) (by simp)
                · have := congrArg Prod.snd hc
                  dsimp only at this
                  rw [← this]
                  simp
              refine ⟨?_, ?_, ?_⟩
              · simp [ProjectService.createProject, hga, hgm, hrr, hq, hc]
              · simp [ProjectService.createProject, hga, hgm, hrr, hq, hc, logAction_projects]
              · intro p hp
                have hp' : p = ⟨nid, wid, req.name, req.description, "active", uid, false⟩ := by
                  simp [ProjectService.createProject, hga, hgm, hrr, hq, hc] at hp
                  exact hp.symm
                rw [hp']
                simp [ProjectService.createProject, hga, hgm, hrr, hq, hc, logAction_projects]
                simpa [logAction_projects] using hmemproj
        · simp [ProjectService.createProject, hga, hgm, hrr]

/-- Witness for C6 (its second conjunct binds a hypothesis): with a
failing audit store, creating a project in a one-member workspace
succeeds and the project row is persisted. -/
theorem c6_audit_never_fails_operation_witness :
    (ProjectService.createProject ⟨true, false⟩
      ⟨⟨[⟨"w1", "t1", "Acme", "", "u1", false⟩], [], [], [⟨"w1", "u1", "owner", 0⟩], []⟩, ⟨[], [], []⟩⟩
      "w1" "u1" ⟨"P", ""⟩ "p1").1 = .ok ⟨"p1", "w1", "P", "", "active", "u1", false⟩ ∧
    (⟨"p1", "w1", "P", "", "active", "u1", false⟩ : Project) ∈
      (ProjectService.createProject ⟨true, false⟩
        ⟨⟨[⟨"w1", "t1", "Acme", "", "u1", false⟩], [], [], [⟨"w1", "u1", "owner", 0⟩], []⟩, ⟨[], [], []⟩⟩
        "w1" "u1" ⟨"P", ""⟩ "p1").2.db.projects := by
  have h := (c6_audit_never_fails_operation.2 ⟨true, false⟩
    ⟨⟨[⟨"w1", "t1", "Acme", "", "u1", false⟩], [], [], [⟨"w1", "u1", "owner", 0⟩], []⟩, ⟨[], [], []⟩⟩
    "w1" "u1" ⟨"P", ""⟩ "p1").2.2 ⟨"p1", "w1", "P", "", "active", "u1", false⟩
  exact ⟨by decide, h (by decide)⟩

/-! ## C2 -/

/-- C2 (refuted by the code): `CreateWorkspace` is not atomic.  With
the owner-membership insert failing after the workspace insert
succeeded, the call returns an error yet the workspace row remains in
the store with no membership row: the repositories write through their
own handle, so `tx.Rollback` rolls back an empty transaction. -/
theorem c2_create_workspace_not_atomic :
    (WorkspaceService.createWorkspace ⟨false, true⟩ ⟨⟨[], [], [], [], []⟩, ⟨[], [], []⟩⟩
      "t1" "u1" ⟨"Acme", ""⟩ "w1").1 = .error .storeFailure ∧
    (WorkspaceService.createWorkspace ⟨false, true⟩ ⟨⟨[], [], [], [], []⟩, ⟨[], [], []⟩⟩
      "t1" "u1" ⟨"Acme", ""⟩ "w1").2.db.workspaces = [⟨"w1", "t1", "Acme", "", "u1", false⟩] ∧
    (WorkspaceService.createWorkspace ⟨false, true⟩ ⟨⟨[], [], [], [], []⟩, ⟨[], [], []⟩⟩
      "t1" "u1" ⟨"Acme", ""⟩ "w1").2.db.members = [] := by decide

/-! ## C4 -/

/-- C4 (refuted by the code): `GetAuditLogs` runs its admin check only
when the filter carries a workspace ID.  A caller with no membership in
any workspace who supplies an empty workspace filter receives the
stored audit entries of workspace `w1`. -/
theorem c4_audit_log_admin_check_bypassed :
    MemberRepo.getByWorkspaceAndUser
      ⟨[⟨"w1", "t1", "Acme", "", "u1", false⟩], [], [],
       [⟨"w1", "u1", "owner", 0⟩, ⟨"w1", "victor", "viewer", 1⟩],
       [⟨"l1", "w1", "u1", "workspace.created", "workspace", "w1", [], 5⟩]⟩
      "w1" "mallory" = .error .memberNotFound ∧
    (AuditService.getAuditLogs
      ⟨⟨[⟨"w1", "t1", "Acme", "", "u1", false⟩], [], [],
        [⟨"w1", "u1", "owner", 0⟩, ⟨"w1", "victor", "viewer", 1⟩],
        [⟨"l1", "w1", "u1", "workspace.created", "workspace", "w1", [], 5⟩]⟩, ⟨[], [], []⟩⟩
      ⟨"", "", "", "", "", 1, 50⟩ "mallory").1 =
      .ok ⟨[⟨"l1", "w1", "u1", "workspace.created", "workspace", "w1", [], 5⟩], 1, 1, 50, 1⟩ := by
  decide

/-! ## C3 -/

/-- C3 as stated is false: a caller with no membership row gets a
successful empty page from `ListMembers`, not the Unauthorized error. -/
theorem c3_counterexample_empty_list_success :
    (MemberService.listMembers
      ⟨⟨[⟨"w1", "t1", "Acme", "", "u1", false⟩], [], [], [⟨"w1", "u1", "owner", 0⟩], []⟩, ⟨[], [], []⟩⟩
      "w1" "intruder" 1 20).1 = .ok ⟨[], 0, 1, 20, 0⟩ ∧
    (MemberService.listMembers
      ⟨⟨[⟨"w1", "t1", "Acme", "", "u1", false⟩], [], [], [⟨"w1", "u1", "owner", 0⟩], []⟩, ⟨[], [], []⟩⟩
      "w1" "intruder" 1 20).1 ≠ .error .unauthorized := by decide

/-- C3 amended: a caller with no membership row in the target workspace
receives Unauthorized from `GetWorkspace` (when the workspace is cached
or present non-deleted), while the three list operations — ListMembers,
ListProjects with a workspace filter, GetAuditLogs with a workspace
filter — return a successful empty-page response instead. -/
theorem c3_no_membership_behaviour (st : St) (wid uid : String)
    (hnm : MemberRepo.getByWorkspaceAndUser st.db wid uid = .error .memberNotFound) :
    ((CacheRepo.getWorkspace st.cache wid).isSome = true ∨
        (∃ w, WorkspaceRepo.getByID st.db wid = .ok w) →
      (WorkspaceService.getWorkspace st wid uid).1 = .error .unauthorized) ∧
    (∀ page pageSize : Int,
      (MemberService.listMembers st wid uid page pageSize).1 =
        .ok ⟨[], 0, page, pageSize, 0⟩) ∧
    (∀ pf : ProjectFilter, pf.workspaceId = wid → wid ≠ "" →
      (ProjectService.listProjects st pf uid).1 = .ok ⟨[], 0, 1, pf.pageSize, 0⟩) ∧
    (∀ af : AuditLogFilter, af.workspaceId = wid → wid ≠ "" →
      (AuditService.getAuditLogs st af uid).1 = .ok ⟨[], 0, 1, af.pageSize, 0⟩) := by
  have hacc : WorkspaceService.checkUserAccess st.db wid uid "viewer" = .error .unauthorized := by
    unfold WorkspaceService.checkUserAccess
    rw [hnm]
  refine ⟨?_, ?_, ?_, ?_⟩
  · intro hex
    unfold WorkspaceService.getWorkspace
    cases hc : CacheRepo.getWorkspace st.cache wid with
    | some w => rw [hacc]
    | none =>
      rcases hex with hs | ⟨w, hw⟩
      · rw [hc] at hs
        simp at hs
      · rw [hw, hacc]
  · intro page pageSize
    unfold MemberService.listMembers
    rw [hnm]
  · intro pf hpf hwid
    unfold ProjectService.listProjects
    have : (pf.workspaceId != "") = true := by simp [hpf, hwid]
    rw [this]
    simp only [if_true]
    rw [hpf, hnm]
  · intro af haf hwid
    unfold AuditService.getAuditLogs
    have : (af.workspaceId != "") = true := by simp [haf, hwid]
    rw [this]
    simp only [if_true]
    rw [haf, hnm]

/-- Witness for the amended C3 at a concrete store: a non-member is
told Unauthorized by `GetWorkspace` and gets empty pages from the list
operations. -/
theorem c3_no_membership_behaviour_witness :
    (WorkspaceService.getWorkspace
      ⟨⟨[⟨"w1", "t1", "Acme", "", "u1", false⟩], [], [], [⟨"w1", "u1", "owner", 0⟩], []⟩, ⟨[], [], []⟩⟩
      "w1" "intruder").1 = .error .unauthorized ∧
    (ProjectService.listProjects
      ⟨⟨[⟨"w1", "t1", "Acme", "", "u1", false⟩], [], [], [⟨"w1", "u1", "owner", 0⟩], []⟩, ⟨[], [], []⟩⟩
      ⟨"w1", "", "", "", 1, 20, false⟩ "intruder").1 = .ok ⟨[], 0, 1, 20, 0⟩ ∧
    (AuditService.getAuditLogs
      ⟨⟨[⟨"w1", "t1", "Acme", "", "u1", false⟩], [], [], [⟨"w1", "u1", "owner", 0⟩], []⟩, ⟨[], [], []⟩⟩
      ⟨"w1", "", "", "", "", 1, 50⟩ "intruder").1 = .ok ⟨[], 0, 1, 50, 0⟩ := by
  have h := c3_no_membership_behaviour
    ⟨⟨[⟨"w1", "t1", "Acme", "", "u1", false⟩], [], [], [⟨"w1", "u1", "owner", 0⟩], []⟩, ⟨[], [], []⟩⟩
    "w1" "intruder" (by decide)
  exact ⟨h.1 (Or.inr ⟨⟨"w1", "t1", "Acme", "", "u1", false⟩, by decide⟩),
    h.2.2.1 ⟨"w1", "", "", "", 1, 20, false⟩ rfl (by decide),
    h.2.2.2 ⟨"w1", "", "", "", "", 1, 50⟩ rfl (by decide)⟩

/-! ## C7 -/

/-- The count the workspace-quota check reads (a one-row page listed
with only the tenant filter) is the tenant's non-deleted workspace
count. -/
theorem wsList_total_eq_tenantCount (db : Db) (t : String) (h : t ≠ "") :
    (WorkspaceRepo.list db ⟨t, "", "", 0, 1, false⟩).2 = tenantWorkspaceCount db t := by
  unfold WorkspaceRepo.list tenantWorkspaceCount
  have ht : (t != "") = true := by simp [h]
  simp [ht, List.filter_filter, Bool.and_comm]

/-- C7: the 10-workspace tenant quota and the 50-project workspace
quota are enforced at the boundary: 10 or more non-deleted workspaces
(resp. 50 or more non-deleted projects) make the create fail with
QuotaExceeded touching nothing, while a tenant holding 9 succeeds. -/
theorem c7_quota_boundaries :
    (∀ (env : Env) (st : St) (t u : String) (req : CreateWorkspaceRequest) (nid : String),
      t ≠ "" → 10 ≤ tenantWorkspaceCount st.db t →
      WorkspaceService.createWorkspace env st t u req nid = (.error .quotaExceeded, st)) ∧
    (∀ (env : Env) (st : St) (t u : String) (req : CreateWorkspaceRequest) (nid : String),
      t ≠ "" → tenantWorkspaceCount st.db t = 9 →
      (∀ w ∈ st.db.workspaces, ¬(w.tenantId = t ∧ w.name = req.name ∧ w.deleted = false)) →
      (∀ m ∈ st.db.members, m.workspaceId ≠ nid) →
      env.memberAddFails = false →
      (WorkspaceService.createWorkspace env st t u req nid).1 =
        .ok ⟨nid, t, req.name, req.description, u, false⟩) ∧
    (∀ (env : Env) (st : St) (wid uid : String) (req : CreateProjectRequest) (nid : String)
      (w : Workspace) (mem : Member),
      WorkspaceRepo.getByID st.db wid = .ok w →
      MemberRepo.getByWorkspaceAndUser st.db wid uid = .ok mem →
      hasRequiredRole mem.role "member" = true →
      50 ≤ ProjectRepo.countByWorkspace st.db wid →
      ProjectService.createProject env st wid uid req nid = (.error .quotaExceeded, st)) := by
  refine ⟨?_, ?_, ?_⟩
  · intro env st t u req nid ht hq
    have hcount := wsList_total_eq_tenantCount st.db t ht
    rcases hl : WorkspaceRepo.list st.db ⟨t, "", "", 0, 1, false⟩ with ⟨items, count⟩
    rw [hl] at hcount
    unfold WorkspaceService.createWorkspace
    rw [hl]
    simp only at hcount
    rw [hcount]
    simp [hq]
  · intro env st t u req nid ht hnine hname hfresh henv
    have hcount := wsList_total_eq_tenantCount st.db t ht
    rcases hl : WorkspaceRepo.list st.db ⟨t, "", "", 0, 1, false⟩ with ⟨items, count⟩
    rw [hl] at hcount
    unfold WorkspaceService.createWorkspace
    rw [hl]
    simp only at hcount
    have hq : ¬(10 ≤ count) := by omega
    simp only [hq, if_false]
    have hdup : (st.db.workspaces.filter (fun w =>
        w.tenantId == t && w.name == req.name && !w.deleted)) = [] := by
      rw [List.filter_eq_nil_iff]
      intro w hw
      have := hname w hw
      intro hcontra
      simp only [Bool.and_eq_true, beq_iff_eq, Bool.not_eq_true'] at hcontra
      exact this ⟨hcontra.1.1, hcontra.1.2, hcontra.2⟩
    unfold WorkspaceRepo.create
    simp only [hdup, List.length_nil, gt_iff_lt, lt_self_iff_false, if_false]
    have hdupm : (st.db.members.filter (fun m =>
        m.workspaceId == nid && m.userId == u)) = [] := by
      rw [List.filter_eq_nil_iff]
      intro m hm
      have := hfresh m hm
      intro hcontra
      simp only [Bool.and_eq_true, beq_iff_eq] at hcontra
      exact this hcontra.1
    unfold MemberRepo.add
    simp [hdupm, henv]
  · intro env st wid uid req nid w mem hw hmem hrole hq
    unfold ProjectService.createProject
    rw [hw, hmem]
    simp [hrole, hq]

/-- Witness for C7: a tenant holding ten workspaces is refused, a
tenant holding nine succeeds, and a workspace holding fifty projects
refuses a new project. -/
theorem c7_quota_boundaries_witness :
    WorkspaceService.createWorkspace ⟨false, false⟩
      ⟨⟨List.replicate 10 ⟨"w", "t1", "n", "", "u1", false⟩, [], [], [], []⟩, ⟨[], [], []⟩⟩
      "t1" "u1" ⟨"Acme", ""⟩ "wNew" =
      (.error .quotaExceeded,
       ⟨⟨List.replicate 10 ⟨"w", "t1", "n", "", "u1", false⟩, [], [], [], []⟩, ⟨[], [], []⟩⟩) ∧
    (WorkspaceService.createWorkspace ⟨false, false⟩
      ⟨⟨List.replicate 9 ⟨"w", "t1", "n", "", "u1", false⟩, [], [], [], []⟩, ⟨[], [], []⟩⟩
      "t1" "u1" ⟨"Acme", ""⟩ "wNew").1 = .ok ⟨"wNew", "t1", "Acme", "", "u1", false⟩ ∧
    ProjectService.createProject ⟨false, false⟩
      ⟨⟨[⟨"w1", "t1", "Acme", "", "u1", false⟩],
        List.replicate 50 ⟨"p", "w1", "x", "", "active", "u1", false⟩, [],
        [⟨"w1", "u1", "owner", 0⟩], []⟩, ⟨[], [], []⟩⟩
      "w1" "u1" ⟨"P", ""⟩ "pNew" =
      (.error .quotaExceeded,
       ⟨⟨[⟨"w1", "t1", "Acme", "", "u1", false⟩],
         List.replicate 50 ⟨"p", "w1", "x", "", "active", "u1", false⟩, [],
         [⟨"w1", "u1", "owner", 0⟩], []⟩, ⟨[], [], []⟩⟩) := by
  refine ⟨?_, ?_, ?_⟩
  · exact c7_quota_boundaries.1 ⟨false, false⟩
      ⟨⟨List.replicate 10 ⟨"w", "t1", "n", "", "u1", false⟩, [], [], [], []⟩, ⟨[], [], []⟩⟩
      "t1" "u1" ⟨"Acme", ""⟩ "wNew" (by decide) (by decide)
  · exact c7_quota_boundaries.2.1 ⟨false, false⟩
      ⟨⟨List.replicate 9 ⟨"w", "t1", "n", "", "u1", false⟩, [], [], [], []⟩, ⟨[], [], []⟩⟩
      "t1" "u1" ⟨"Acme", ""⟩ "wNew" (by decide) (by decide) (by decide) (by decide) rfl
  · exact c7_quota_boundaries.2.2 ⟨false, false⟩
      ⟨⟨[⟨"w1", "t1", "Acme", "", "u1", false⟩],
        List.replicate 50 ⟨"p", "w1", "x", "", "active", "u1", false⟩, [],
        [⟨"w1", "u1", "owner", 0⟩], []⟩, ⟨[], [], []⟩⟩
      "w1" "u1" ⟨"P", ""⟩ "pNew" ⟨"w1", "t1", "Acme", "", "u1", false⟩ ⟨"w1", "u1", "owner", 0⟩
      (by decide) (by decide) (by decide) (by decide)

/-! ## C8 -/

/-- The one-row base page `DeleteProject` counts is positive whenever a
non-deleted base is connected to the project. -/
theorem baseList_total_pos (db : Db) (pid : String) (b : AirtableBase)
    (hb : b ∈ db.bases) (hpb : b.projectId = pid) (hnd : b.deleted = false) :
    0 < (AirtableBaseRepo.list db ⟨pid, none, "", 0, 1⟩).2 := by
  unfold AirtableBaseRepo.list
  dsimp only
  simp only [show (("" : String) != "") = false from by decide, Bool.false_eq_true, if_false]
  by_cases hpid : pid = ""
  · have h0 : (pid != "") = false := by simp [hpid]
    simp only [h0, Bool.false_eq_true, if_false]
    apply List.length_pos.mpr
    apply List.ne_nil_of_mem (a := b)
    exact List.mem_filter.mpr ⟨hb, by simp [hnd]⟩
  · have h1 : (pid != "") = true := by simp [hpid]
    simp only [h1, if_true]
    apply List.length_pos.mpr
    apply List.ne_nil_of_mem (a := b)
    exact List.mem_filter.mpr ⟨List.mem_filter.mpr ⟨hb, by simp [hpb]⟩, by simp [hnd]⟩

/-- C8: deleting a project with a non-deleted connected base fails and
touches nothing, and deleting a workspace with a non-deleted project
fails and touches nothing; neither cascades. -/
theorem c8_child_blocking_deletes :
    (∀ (env : Env) (st : St) (pid uid : String) (p : Project) (mem : Member),
      ProjectRepo.getByID st.db pid = .ok p →
      MemberRepo.getByWorkspaceAndUser st.db p.workspaceId uid = .ok mem →
      hasRequiredRole mem.role "admin" = true →
      (∃ b ∈ st.db.bases, b.projectId = pid ∧ b.deleted = false) →
      ∃ n, 0 < n ∧ ProjectService.deleteProject env st pid uid = (.error (.projectHasBases n), st)) ∧
    (∀ (env : Env) (st : St) (wid uid : String) (mem : Member),
      MemberRepo.getByWorkspaceAndUser st.db wid uid = .ok mem →
      hasRequiredRole mem.role "owner" = true →
      (∃ p ∈ st.db.projects, p.workspaceId = wid ∧ p.deleted = false) →
      ∃ n, 0 < n ∧
        WorkspaceService.deleteWorkspace env st wid uid = (.error (.workspaceHasProjects n), st)) := by
  constructor
  · intro env st pid uid p mem hgp hgm hrole hex
    obtain ⟨b, hb, hpb, hnd⟩ := hex
    have hpos := baseList_total_pos st.db pid b hb hpb hnd
    rcases hl : AirtableBaseRepo.list st.db ⟨pid, none, "", 0, 1⟩ with ⟨items, n⟩
    rw [hl] at hpos
    simp only at hpos
    refine ⟨n, hpos, ?_⟩
    have hacc : ProjectService.checkProjectAccess st.db p uid "admin" = .ok () := by
      unfold ProjectService.checkProjectAccess
      rw [hgm]
      simp [hrole]
    simp [ProjectService.deleteProject, hgp, hacc, hl, hpos]
  · intro env st wid uid mem hgm hrole hex
    obtain ⟨p, hp, hwp, hnd⟩ := hex
    have hpos : 0 < ProjectRepo.countByWorkspace st.db wid := by
      unfold ProjectRepo.countByWorkspace
      apply List.length_pos.mpr
      apply List.ne_nil_of_mem (a := p)
      exact List.mem_filter.mpr ⟨hp, by simp [hwp, hnd]⟩
    refine ⟨ProjectRepo.countByWorkspace st.db wid, hpos, ?_⟩
    have hacc : WorkspaceService.checkUserAccess st.db wid uid "owner" = .ok () := by
      unfold WorkspaceService.checkUserAccess
      rw [hgm]
      simp [hrole]
    simp [WorkspaceService.deleteWorkspace, hacc, hpos]

/-- Witness for C8: a project with one connected base and a workspace
with one project both refuse deletion. -/
theorem c8_child_blocking_deletes_witness :
    (∃ n, 0 < n ∧ ProjectService.deleteProject ⟨false, false⟩
      ⟨⟨[⟨"w1", "t1", "Acme", "", "u1", false⟩],
        [⟨"p1", "w1", "P", "", "active", "u1", false⟩],
        [⟨"b1", "p1", "appX", "B", "", true, false⟩],
        [⟨"w1", "u1", "owner", 0⟩], []⟩, ⟨[], [], []⟩⟩ "p1" "u1" =
      (.error (.projectHasBases n),
       ⟨⟨[⟨"w1", "t1", "Acme", "", "u1", false⟩],
         [⟨"p1", "w1", "P", "", "active", "u1", false⟩],
         [⟨"b1", "p1", "appX", "B", "", true, false⟩],
         [⟨"w1", "u1", "owner", 0⟩], []⟩, ⟨[], [], []⟩⟩)) ∧
    (∃ n, 0 < n ∧ WorkspaceService.deleteWorkspace ⟨false, false⟩
      ⟨⟨[⟨"w1", "t1", "Acme", "", "u1", false⟩],
        [⟨"p1", "w1", "P", "", "active", "u1", false⟩], [],
        [⟨"w1", "u1", "owner", 0⟩], []⟩, ⟨[], [], []⟩⟩ "w1" "u1" =
      (.error (.workspaceHasProjects n),
       ⟨⟨[⟨"w1", "t1", "Acme", "", "u1", false⟩],
         [⟨"p1", "w1", "P", "", "active", "u1", false⟩], [],
         [⟨"w1", "u1", "owner", 0⟩], []⟩, ⟨[], [], []⟩⟩)) := by
  constructor
  · exact c8_child_blocking_deletes.1 ⟨false, false⟩
      ⟨⟨[⟨"w1", "t1", "Acme", "", "u1", false⟩],
        [⟨"p1", "w1", "P", "", "active", "u1", false⟩],
        [⟨"b1", "p1", "appX", "B", "", true, false⟩],
        [⟨"w1", "u1", "owner", 0⟩], []⟩, ⟨[], [], []⟩⟩ "p1" "u1"
      ⟨"p1", "w1", "P", "", "active", "u1", false⟩ ⟨"w1", "u1", "owner", 0⟩
      (by decide) (by decide) (by decide)
      ⟨⟨"b1", "p1", "appX", "B", "", true, false⟩, by decide, rfl, rfl⟩
  · exact c8_child_blocking_deletes.2 ⟨false, false⟩
      ⟨⟨[⟨"w1", "t1", "Acme", "", "u1", false⟩],
        [⟨"p1", "w1", "P", "", "active", "u1", false⟩], [],
        [⟨"w1", "u1", "owner", 0⟩], []⟩, ⟨[], [], []⟩⟩ "w1" "u1"
      ⟨"w1", "u1", "owner", 0⟩ (by decide) (by decide)
      ⟨⟨"p1", "w1", "P", "", "active", "u1", false⟩, by decide, rfl, rfl⟩

/-! ## C10 -/

/-- A repository page never exceeds the clamped page size. -/
theorem length_paginate_le (page pageSize : Int) (l : List α) :
    (paginate page pageSize l).length ≤ pageSize.toNat := by
  unfold paginate
  simp [List.length_take]

/-- C10: an authorized `ListMembers` call with a requested page size
above 100 reports the unclamped page size and computes TotalPages from
it, while the returned page holds at most 100 rows because the
repository clamps its query to 100 — two different page sizes in one
response. -/
theorem c10_list_members_page_size_mismatch (st : St) (wid uid : String)
    (page pageSize : Int) (mem : Member)
    (hmem : MemberRepo.getByWorkspaceAndUser st.db wid uid = .ok mem)
    (hrole : hasRequiredRole mem.role "viewer" = true)
    (hps : 100 < pageSize) :
    ∃ resp : MemberListResponse,
      MemberService.listMembers st wid uid page pageSize = (.ok resp, st) ∧
      resp.pageSize = pageSize ∧
      resp.members.length ≤ 100 ∧
      resp.total = (st.db.members.filter (fun m => m.workspaceId == wid)).length ∧
      resp.totalPages = totalPagesOf resp.total pageSize := by
  have hclamp : clampPageSize 20 pageSize = 100 := by
    unfold clampPageSize
    have h1 : ¬(pageSize < 1) := by omega
    simp [h1, hps]
  have hlen : ∀ l : List Member,
      (paginate (clampPage page) (clampPageSize 20 pageSize) l).length ≤ 100 := by
    intro l
    have h1 := length_paginate_le (clampPage page) (clampPageSize 20 pageSize) l
    have h2 : (clampPageSize 20 pageSize).toNat = 100 := by rw [hclamp]; rfl
    rw [h2] at h1
    exact h1
  have hps1 : ¬(pageSize < 1) := by omega
  unfold MemberService.listMembers
  rw [hmem]
  simp only [hrole, Bool.not_true, Bool.false_eq_true, if_false]
  unfold MemberRepo.list
  dsimp only
  simp only [if_neg hps1]
  exact ⟨_, rfl, rfl, hlen _, rfl, rfl⟩

/-- Witness for C10: one member, requested page size 200: the response
reports page size 200 and one total page while the page itself was
limited by the repository clamp. -/
theorem c10_list_members_page_size_mismatch_witness :
    ∃ resp : MemberListResponse,
      MemberService.listMembers
        ⟨⟨[⟨"w1", "t1", "Acme", "", "u1", false⟩], [], [], [⟨"w1", "u1", "owner", 0⟩], []⟩, ⟨[], [], []⟩⟩
        "w1" "u1" 1 200 =
        (.ok resp,
         ⟨⟨[⟨"w1", "t1", "Acme", "", "u1", false⟩], [], [], [⟨"w1", "u1", "owner", 0⟩], []⟩, ⟨[], [], []⟩⟩) ∧
      resp.pageSize = 200 ∧ resp.members.length ≤ 100 ∧
      resp.total = 1 ∧ resp.totalPages = totalPagesOf 1 200 := by
  obtain ⟨resp, h1, h2, h3, h4, h5⟩ := c10_list_members_page_size_mismatch
    ⟨⟨[⟨"w1", "t1", "Acme", "", "u1", false⟩], [], [], [⟨"w1", "u1", "owner", 0⟩], []⟩, ⟨[], [], []⟩⟩
    "w1" "u1" 1 200 ⟨"w1", "u1", "owner", 0⟩ (by decide) (by decide) (by decide)
  have ht : resp.total = 1 := by rw [h4]; decide
  exact ⟨resp, h1, h2, h3, ht, by rw [h5, ht]⟩

/-! ## C9 -/

/-- C9 as stated is false at the empty name: `UpdateWorkspace` with
`name = some ""` succeeds and returns a workspace named `""`, but
GORM's struct `Updates` skips the zero-valued name, so the durable row
keeps the pre-update name and the post-invalidation `GetWorkspace`
returns `"Old"`, not the requested `""`. -/
theorem c9_counterexample_empty_rename_not_persisted :
    (WorkspaceService.updateWorkspace ⟨false, false⟩
      ⟨⟨[⟨"w1", "t1", "Old", "d", "u1", false⟩], [], [], [⟨"w1", "u1", "owner", 0⟩], []⟩, ⟨[], [], []⟩⟩
      "w1" "u1" ⟨some "", none⟩).1 = .ok ⟨"w1", "t1", "", "d", "u1", false⟩ ∧
    (WorkspaceService.getWorkspace
      (WorkspaceService.updateWorkspace ⟨false, false⟩
        ⟨⟨[⟨"w1", "t1", "Old", "d", "u1", false⟩], [], [], [⟨"w1", "u1", "owner", 0⟩], []⟩, ⟨[], [], []⟩⟩
        "w1" "u1" ⟨some "", none⟩).2
      "w1" "u1").1 = .ok ⟨"w1", "t1", "Old", "d", "u1", false⟩ ∧
    ("Old" : String) ≠ "" := by decide

/-- C9 amended: after a successful `UpdateWorkspace` renaming workspace
`wid` to a non-empty `x`, the returned workspace carries name `x`, the
resulting state is fresh at `x` (the cache entry is invalidated and
the durable row holds `x`), and freshness is an invariant of
`GetWorkspace` under which every successful read of `wid` — cache hit
or read-through miss — returns name `x`, never a pre-update name.
(The non-emptiness restriction is forced by
`c9_counterexample_empty_rename_not_persisted`: GORM's struct
`Updates` never persists an empty name.) -/
theorem c9_update_then_get_fresh (env : Env) (st : St) (wid uid x : String)
    (req : UpdateWorkspaceRequest) (ws : Workspace) (st' : St)
    (hname : req.name = some x) (hx0 : x ≠ "")
    (hupd : WorkspaceService.updateWorkspace env st wid uid req = (.ok ws, st')) :
    ws.name = x ∧ freshName st' wid x ∧
    (∀ st2 : St, freshName st2 wid x →
      (∀ uid2 ws2, (WorkspaceService.getWorkspace st2 wid uid2).1 = .ok ws2 → ws2.name = x) ∧
      (∀ wid2 uid2, freshName (WorkspaceService.getWorkspace st2 wid2 uid2).2 wid x)) := by
  unfold WorkspaceService.updateWorkspace at hupd
  cases hacc : WorkspaceService.checkUserAccess st.db wid uid "admin" with
  | error e => rw [hacc] at hupd; exact absurd (congrArg Prod.fst hupd) (by simp)
  | ok u1 =>
  rw [hacc] at hupd
  dsimp only at hupd
  cases hgid : WorkspaceRepo.getByID st.db wid with
  | error e => rw [hgid] at hupd; exact absurd (congrArg Prod.fst hupd) (by simp)
  | ok ws0 =>
  rw [hgid] at hupd
  dsimp only at hupd
  rw [hname] at hupd
  obtain ⟨hid0, _⟩ := getByID_ok_id st.db wid ws0 hgid
  cases hdesc : req.description with
  | none =>
    rw [hdesc] at hupd
    dsimp only at hupd
    rcases hup : WorkspaceRepo.update st.db { ws0 with name := x } with ⟨res, db1⟩
    rw [hup] at hupd
    cases res with
    | error e => exact absurd (congrArg Prod.fst hupd) (by simp)
    | ok u2 =>
      simp only [List.cons_append, List.nil_append, List.length_cons, List.length_nil,
        gt_iff_lt, Nat.zero_lt_succ, if_true, Prod.mk.injEq, Except.ok.injEq] at hupd
      obtain ⟨hws, hst⟩ := hupd
      have hdb1 := update_ok_workspaces st.db { ws0 with name := x } db1 hup
      refine ⟨by rw [← hws], ?_, ?_⟩
      · rw [← hst]
        constructor
        · intro c hcg
          rw [cacheGet_delete] at hcg
          exact absurd hcg (by simp)
        · intro w hw
          dsimp only at hw
          rw [getByID_ws_eq _ db1 (logAction_workspaces env db1 wid uid "workspace.updated"
            "workspace" wid [("name", .oldNew ws0.name x)]) wid] at hw
          exact getByID_updated_name db1 st.db.workspaces { ws0 with name := x } wid x hdb1
            hid0 rfl hx0 w hw
      · intro st2 hf
        exact getWorkspace_keeps_freshName st2 wid x hf
  | some d =>
    rw [hdesc] at hupd
    dsimp only at hupd
    rcases hup : WorkspaceRepo.update st.db { ws0 with name := x, description := d } with ⟨res, db1⟩
    rw [hup] at hupd
    cases res with
    | error e => exact absurd (congrArg Prod.fst hupd) (by simp)
    | ok u2 =>
      simp only [List.cons_append, List.nil_append, List.length_cons, List.length_nil,
        gt_iff_lt, Nat.zero_lt_succ, if_true, Prod.mk.injEq, Except.ok.injEq] at hupd
      obtain ⟨hws, hst⟩ := hupd
      have hdb1 := update_ok_workspaces st.db { ws0 with name := x, description := d } db1 hup
      refine ⟨by rw [← hws], ?_, ?_⟩
      · rw [← hst]
        constructor
        · intro c hcg
          rw [cacheGet_delete] at hcg
          exact absurd hcg (by simp)
        · intro w hw
          dsimp only at hw
          rw [getByID_ws_eq _ db1 (logAction_workspaces env db1 wid uid "workspace.updated"
            "workspace" wid [("name", .oldNew ws0.name x), ("description", .oldNew ws0.description d)])
            wid] at hw
          exact getByID_updated_name db1 st.db.workspaces { ws0 with name := x, description := d }
            wid x hdb1 hid0 rfl hx0 w hw
      · intro st2 hf
        exact getWorkspace_keeps_freshName st2 wid x hf

/-- Witness for C9: renaming a workspace whose stale copy sits in the
cache, then reading it back, yields the new name. -/
theorem c9_update_then_get_fresh_witness :
    (WorkspaceService.getWorkspace
      ⟨⟨[⟨"w1", "t1", "New", "", "u1", false⟩], [], [], [⟨"w1", "u1", "owner", 0⟩],
        [⟨"", "w1", "u1", "workspace.updated", "workspace", "w1", [("name", JVal.oldNew "Old" "New")], 0⟩]⟩,
       ⟨[], [], []⟩⟩ "w1" "u1").1 = .ok ⟨"w1", "t1", "New", "", "u1", false⟩ ∧
    (⟨"w1", "t1", "New", "", "u1", false⟩ : Workspace).name = "New" := by
  have h := c9_update_then_get_fresh ⟨false, false⟩
    ⟨⟨[⟨"w1", "t1", "Old", "", "u1", false⟩], [], [], [⟨"w1", "u1", "owner", 0⟩], []⟩,
     ⟨[("w1", ⟨"w1", "t1", "Old", "", "u1", false⟩)], [], []⟩⟩
    "w1" "u1" "New" ⟨some "New", none⟩ ⟨"w1", "t1", "New", "", "u1", false⟩
    ⟨⟨[⟨"w1", "t1", "New", "", "u1", false⟩], [], [], [⟨"w1", "u1", "owner", 0⟩],
      [⟨"", "w1", "u1", "workspace.updated", "workspace", "w1", [("name", JVal.oldNew "Old" "New")], 0⟩]⟩,
     ⟨[], [], []⟩⟩ rfl (by decide) (by decide)
  refine ⟨by decide, ?_⟩
  exact (h.2.2 _ h.2.1).1 "u1" ⟨"w1", "t1", "New", "", "u1", false⟩ (by decide)

/-- Witness for C5 at concrete role pairs. -/
theorem c5_role_hierarchy_witness :
    hasRequiredRole "admin" "member" = decide (specRank "member" ≤ specRank "admin") ∧
    hasRequiredRole "viewer" "admin" = decide (specRank "admin" ≤ specRank "viewer") ∧
    hasRequiredRole "boss" "viewer" = false :=
  ⟨c5_role_hierarchy.1 "admin" (by decide) "member" (by decide),
   c5_role_hierarchy.1 "viewer" (by decide) "admin" (by decide),
   (c5_role_hierarchy.2 "boss" (by decide) "viewer").1⟩

end WorkspaceSvc
